import Mathlib

set_option autoImplicit false

/-
  Verification development for the deepkit-framework Reflection Virtual Machine
  (packages/type/src/reflection/processor.ts).

  The RVM is a stack-based interpreter that reconstructs a runtime type
  representation from a packed program (literal pool + opcode string).  The
  development below is a shallow embedding of processor.ts: the processor state
  (operand stack, frame chain, program counter, result anchor) is an explicit
  Lean structure, each opcode case of `Processor.run`'s switch is translated
  into a case of a `step` function, and the outer for-loop becomes a
  fuel-indexed `runLoop`.

  Conventions used throughout:
  * JS numbers that are used as indexes / program counters are modelled as
    `Int` (the stack pointer starts at -1, and frame `startIndex` can be -1).
  * The operand stack (a JS array pre-sized to 128 slots and growable) is
    modelled as a total function `Int → Entry`; unset slots read as `.undefV`
    exactly as a JS out-of-bounds array read yields `undefined`.
  * Interior mutability: the only post-construction mutations performed by the
    processor are (a) adjective opcodes mutating the top of the stack, which we
    model by functional update, and (b) the result-anchor assignment
    `Object.assign(this.resultType, t)` executed by the final `class` /
    `objectLiteral` opcode.  The anchor is modelled by the distinguished node
    `Ty.selfRef` (pushed whenever the source pushes `this.resultType`) together
    with the `anchored` flag of the machine state: a completed run with
    `anchored = true` returns the very object that every `.selfRef` in the
    result denotes, which is how object identity across a recursive type is
    expressed in this embedding.
  * Code of this repository that is outside src/ (reflection/type.ts and
    reflection/extends.ts: the `ReflectionOp` numbering and the type utilities
    `flattenUnionTypes`, `unboxUnion`, `isExtendable`, `indexAccess`, `merge`,
    `narrowOriginalLiteral`, `CartesianProduct`) is modelled from the spec;
    each such definition carries a doc comment starting `Modelled from the
    spec:`.  Everything else is translated directly from processor.ts.
-/

namespace RVM

/-- Boxed literal values (string / number / boolean literals of the source
language).  `undefV` models the JS `undefined` that arises when a literal
opcode references a missing pool slot. -/
inductive Lit where
  | str (s : String)
  | num (n : Int)
  | bool (b : Bool)
  | undefV
deriving DecidableEq, Repr

/-- ReflectionVisibility from reflection/type.ts (public / protected /
private); constructor names carry a `v` prefix because of Lean keywords. -/
inductive Visibility where
  | vpublic
  | vprotected
  | vprivate
deriving DecidableEq, Repr

/-- Runtime class handles pushed by the special-class opcodes (`date`,
`uint8Array`, ..., `set`, `map`, `arrayBuffer`).  `object` is the placeholder
`Object` used by the `class` opcode. -/
inductive ClassRef where
  | object
  | date
  | uint8Array
  | int8Array
  | uint8ClampedArray
  | uint16Array
  | int16Array
  | uint32Array
  | int32Array
  | float32Array
  | float64Array
  | bigInt64Array
  | arrayBuffer
  | set
  | map
deriving DecidableEq, Repr

/-- The Type IR: a tagged variant tree mirroring the `Type` union of
reflection/type.ts, restricted to the fields the processor reads or writes.
Optional JS boolean fields (`optional?`, `readonly?`, `abstract?`) are Bools
(absent = false; the processor only ever sets them to `true` or deletes them).
`classT` / `functionT` carry a trailing T because `class` / `function` are
Lean keywords.  `nonType` stands for a non-Type runtime value stored in a
Type position (JS performs no checks; no claim exercises this).  `selfRef`
is the processor's pre-allocated `resultType` anchor (see the header
comment). -/
inductive Ty where
  | never
  | any
  | unknown
  | void
  | object
  | undefined
  | null
  | string
  | number (brand : Option Int)
  | bigint
  | boolean
  | symbol
  | regexp
  | literal (l : Lit)
  | templateLiteral (types : List Ty)
  | classT (classType : ClassRef) (types : List Ty) (arguments : Option (List Ty))
  | parameter (name : String) (ty : Ty) (optional readonly : Bool) (visibility : Option Visibility)
  | enumT (entries : List (String × Lit)) (values : List Lit)
  | enumMember (name : String) (dflt : Option Lit)
  | tuple (types : List Ty)
  | tupleMember (ty : Ty) (optional : Bool) (name : Option String)
  | rest (ty : Ty)
  | promise (ty : Ty)
  | union (types : List Ty)
  | intersection (types : List Ty)
  | functionT (name : Option String) (parameters : List Ty) (ret : Ty)
  | array (ty : Ty)
  | property (name : Lit) (ty : Ty) (optional readonly abstract : Bool)
      (visibility : Option Visibility) (description : Option String)
  | propertySignature (name : Lit) (ty : Ty) (optional readonly : Bool)
      (description : Option String)
  | method (name : Lit) (parameters : List Ty) (ret : Ty) (abstract : Bool)
      (visibility : Option Visibility)
  | methodSignature (name : Lit) (parameters : List Ty) (ret : Ty) (optional : Bool)
  | indexSignature (index : Ty) (ty : Ty)
  | objectLiteral (types : List Ty)
  | infer (frameOffset : Int) (stackEntryIndex : Int)
  | typeParameter (name : String)
  | nonType
  | selfRef
deriving Repr

/-- Modelled from the spec: `unboxUnion(u)` (reflection/type.ts is not under
src/) — "if union has exactly one member, return that member; otherwise
return the union". -/
def unboxUnion : Ty → Ty
  | .union [t] => t
  | u => u

mutual

/-- Modelled from the spec: `flattenUnionTypes(ts)` (reflection/type.ts is not
under src/) — "recursively inline nested unions; drop `never`". -/
def flattenUnionTypes : List Ty → List Ty
  | [] => []
  | t :: rest => flattenOne t ++ flattenUnionTypes rest

/-- One member's contribution to the flattened union: a nested union is
inlined recursively, `never` is dropped, anything else kept. -/
def flattenOne : Ty → List Ty
  | .union inner => flattenUnionTypes inner
  | .never => []
  | t => [t]

end

/-- isPrimitive from reflection/type.ts (used by the intersection opcode);
modelled from the spec's primitive kind list. -/
def isPrimitiveTy : Ty → Bool
  | .string | .number _ | .bigint | .boolean | .undefined | .null | .never
  | .any | .unknown | .void | .object | .literal _ => true
  | _ => false

/-- Modelled from the spec: `isExtendable(left, right)` (reflection/extends.ts
is not under src/) — "structural assignability test ... Must handle: primitive
subtyping, literal ↔ primitive, tuple/array/object-literal structural check,
union distribution is performed by the caller via the `distribute` opcode,
not here".  Only the parts the spec names are modelled; `infer` binding is
not performed (the modelled `extends` opcode therefore never writes into an
ancestor frame).  The Nat argument is a recursion budget — the
shallow-embedding convention for JS's unbounded recursion; `isExtendable`
fixes it at 1000, ample for every type a claim evaluates. -/
def isExtendableF : Nat → Ty → Ty → Bool
  | 0, _, _ => false
  | fuel + 1, left, right =>
    match left, right with
    | _, .any => true
    | _, .unknown => true
    | .never, _ => true
    | .any, _ => true
    | .union ls, r => ls.all (fun l => isExtendableF fuel l r)
    | l, .union rs => rs.any (fun r => isExtendableF fuel l r)
    | .literal (.str _), .string => true
    | .literal (.num _), .number _ => true
    | .literal (.bool _), .boolean => true
    | .literal a, .literal b => a == b
    | .string, .string => true
    | .number _, .number _ => true
    | .boolean, .boolean => true
    | .bigint, .bigint => true
    | .symbol, .symbol => true
    | .null, .null => true
    | .undefined, .undefined => true
    | .void, .void => true
    | .object, .object => true
    | .regexp, .regexp => true
    | .array a, .array b => isExtendableF fuel a b
    | .tuple as_, .tuple bs =>
      as_.length == bs.length &&
        (as_.zip bs).all (fun p => isExtendableF fuel p.1 p.2)
    | .objectLiteral ls, .objectLiteral rs =>
      rs.all (fun r =>
        ls.any (fun l =>
          match l, r with
          | .propertySignature nl tl _ _ _, .propertySignature nr tr _ _ _ =>
            nl == nr && isExtendableF fuel tl tr
          | _, _ => false))
    | _, _ => false

/-- The structural assignability test at the fixed recursion budget. -/
def isExtendable (left right : Ty) : Bool := isExtendableF 1000 left right


/-- Modelled from the spec: `narrowOriginalLiteral(t)` (reflection/type.ts is
not under src/) — "returns `t` unchanged unless it is a widening candidate";
no widening candidates arise in the modelled IR, so it is the identity. -/
def narrowOriginalLiteral (t : Ty) : Ty := t

/-- Modelled from the spec: `merge(objectsOrClasses)` (reflection/type.ts is
not under src/) — "structural merge of object-literal/class candidates for
intersections": the member lists are concatenated into one object literal. -/
def mergeTypes (candidates : List Ty) : Ty :=
  .objectLiteral (candidates.foldr
    (fun c acc =>
      (match c with
       | .objectLiteral ms => ms
       | .classT _ ms _ => ms
       | _ => []) ++ acc) [])

/-- Modelled from the spec: `CartesianProduct.add` — a union contributes its
member list, any other type contributes a singleton list. -/
def cartesianExpand : Ty → List Ty
  | .union ts => ts
  | t => [t]

/-- Modelled from the spec: `CartesianProduct.calculate` — the list of all
combinations, first factor outermost. -/
def cartesianCalculate : List Ty → List (List Ty)
  | [] => [[]]
  | t :: rest =>
    List.flatten ((cartesianExpand t).map
      (fun x => (cartesianCalculate rest).map (fun combo => x :: combo)))

/-- JS string coercion of a literal value (`item.literal as string + ''`,
source line 277). -/
def litToString : Lit → String
  | .str s => s
  | .num n => toString n
  | .bool b => if b then "true" else "false"
  | .undefV => "undefined"

/-- The `kind === literal` test of the combination-merging loop. -/
def Ty.litOf : Ty → Option Lit
  | .literal l => some l
  | _ => none

/-- Merging one cartesian combination of the `templateLiteral` opcode (source
lines 269-287): runs of adjacent literals concatenate into one string
literal (in order, via JS string coercion), any other item is kept as a
placeholder.  Returns the merged member list together with the
`hasPlaceholder` flag.  (The source merges left to right into the first
literal of a run; this right fold merges the same runs.) -/
def mergeComb : List Ty → List Ty × Bool
  | [] => ([], false)
  | t0 :: rest =>
    let r := mergeComb rest
    match Ty.litOf t0 with
    | some l =>
      (match r.1 with
       | th :: tail =>
         (match Ty.litOf th with
          | some l' => (.literal (.str (litToString l ++ litToString l')) :: tail, r.2)
          | none => (.literal (.str (litToString l)) :: r.1, r.2))
       | [] => (.literal (.str (litToString l)) :: r.1, r.2))
    | none => (t0 :: r.1, true)

/-- What one combination contributes to the union built by the
`templateLiteral` opcode (source lines 289-297): with a placeholder, a lone
`string` member is used directly, otherwise a template-literal node; without
a placeholder the single merged literal (nothing for an empty combination). -/
def templateCombine (combination : List Ty) : Option Ty :=
  match mergeComb combination with
  | (types, true) =>
    (match types with
     | [.string] => some .string
     | _ => some (.templateLiteral types))
  | (types, false) =>
    (match types with
     | [l] => some l
     | _ => none)

mutual

/-- Modelled from the spec: `indexAccess(left, rightIndex)` (reflection
/type.ts is not under src/) — "`T[K]` for object/class/tuple/array/union
indexers; on unresolvable access yields `never`". -/
def indexAccessT (left right : Ty) : Ty :=
  match left, right with
  | .objectLiteral ms, .literal l => memberTypeNamed ms l
  | .classT _ ms _, .literal l => memberTypeNamed ms l
  | .tuple ms, .literal (.num n) =>
    (match ms.get? n.toNat with
     | some (.tupleMember t _ _) => t
     | some t => t
     | none => .never)
  | .array t, .number _ => t
  | .array t, .literal (.num _) => t
  | .union ls, r => .union (indexAccessList ls r)
  | _, _ => .never

/-- Index access distributed over the members of a union on the left. -/
def indexAccessList (ls : List Ty) (r : Ty) : List Ty :=
  match ls with
  | [] => []
  | l :: rest => indexAccessT l r :: indexAccessList rest r

/-- The type of the member of `ms` named `l` (`never` when absent). -/
def memberTypeNamed (ms : List Ty) (l : Lit) : Ty :=
  match ms with
  | [] => .never
  | .propertySignature n t _ _ _ :: rest =>
    if n == l then t else memberTypeNamed rest l
  | .property n t _ _ _ _ _ :: rest =>
    if n == l then t else memberTypeNamed rest l
  | _ :: rest => memberTypeNamed rest l

end

/-- Entries of the literal pool of a packed program (`RuntimeStackEntry`):
plain literal values, nullary functions producing a literal (default-value
thunks, deferred names), a by-identity reference to the very packed program
being evaluated (`packedSelf`, used by the `inline` / `inlineCall`
self-reference), and `foreign` for runtime values outside the model (class
thunks, other packed programs, arbitrary functions). -/
inductive PoolEntry where
  | lit (l : Lit)
  | thunk (l : Lit)
  | packedSelf
  | foreign (tag : Nat)
deriving DecidableEq, Repr

/-- A packed program: an array whose last element should be the opcode
string; every element before it is the literal pool (source type `Packed`).
A string element is `.lit (.str s)`. -/
abbrev Packed := List PoolEntry

/-- Decoded program (source class `PackStruct`): opcode array and literal
pool (the source names the pool `stack` because `run` preloads it onto the
operand stack). -/
structure PackStruct where
  ops : List Int
  stack : List PoolEntry
deriving DecidableEq, Repr

/-- unpackOps (source lines 61-65): each character of the encoded opcode
string decodes to `charCode − 33`.  (`charCodeAt` yields UTF-16 units; the
chars of an opcode string are ASCII, where code units and code points
coincide.) -/
def unpackOps (encodedOPs : String) : List Int :=
  encodedOPs.data.map (fun c => (c.toNat : Int) - 33)

/-- unpack (source lines 67-83): the last element must be a string, else the
empty program is returned; all elements before it form the literal pool in
order (`pack.slice(0, -1)`). -/
def unpack (pack : Packed) : PackStruct :=
  match pack.getLast? with
  | some (.lit (.str s)) => { ops := unpackOps s, stack := pack.dropLast }
  | _ => { ops := [], stack := [] }

/-- Operand-stack slots (`RuntimeStackEntry | Type`): type nodes, raw
numbers (also the return addresses pushed by `call`), strings, booleans
(pushed by `extends`), literal thunks, the self-referencing packed program,
foreign values, and `undefV` for the JS `undefined` read from any unset
slot. -/
inductive Entry where
  | ty (t : Ty)
  | num (n : Int)
  | str (s : String)
  | bool (b : Bool)
  | thunk (l : Lit)
  | packedSelf
  | foreign (tag : Nat)
  | undefV
deriving Repr

/-- Pool entries preloaded onto the operand stack by `run`. -/
def PoolEntry.toEntry : PoolEntry → Entry
  | .lit (.str s) => .str s
  | .lit (.num n) => .num n
  | .lit (.bool b) => .bool b
  | .lit .undefV => .undefV
  | .thunk l => .thunk l
  | .packedSelf => .packedSelf
  | .foreign t => .foreign t

/-- The JS cast `as Type`: reading a non-Type entry where a type is expected
produces the placeholder `nonType` (JS would carry the raw value along). -/
def entryTy : Entry → Ty
  | .ty t => t
  | _ => .nonType

/-- isType from @deepkit/core (an object with a `kind` tag). -/
def isTypeE : Entry → Bool
  | .ty _ => true
  | _ => false

/-- JS truthiness of a stack entry (type nodes are objects, hence truthy). -/
def entryTruthy : Entry → Bool
  | .undefV => false
  | .num n => !(n == 0)
  | .str s => !(s == "")
  | .bool b => b
  | _ => true

/-- Modelled from the spec: the `ReflectionOp` enumeration of
reflection/type.ts (not under src/).  Constructor order follows the
enumeration order given in spec §6; names that are Lean keywords carry an
`Op` suffix.  `template` (spec §6: "alias of typeParameter for compile
output") shares `typeParameter`'s code and has no constructor of its own. -/
inductive ReflectionOp where
  | string | number | boolean | bigint | void | unknown | object | never
  | undefined | symbol | null | any | literal | templateLiteral | regexp
  | date | uint8Array | int8Array | uint8ClampedArray | uint16Array
  | int16Array | uint32Array | int32Array | float32Array | float64Array
  | bigInt64Array | arrayBuffer | classOp | parameter | classReference
  | enum | enumMember | tuple | tupleMember | namedTupleMember | rest
  | set | map | promise | union | intersection | functionOp | array
  | property | propertySignature | method | methodSignature | optional
  | readonly | publicOp | protectedOp | privateOp | abstract | defaultValue
  | description | indexSignature | objectLiteral | distribute | condition
  | jumpCondition | infer | extendsOp | indexAccess | typeof | keyof
  | var | mappedType | loads | arg | returnOp | frame | moveFrame | jump
  | call | inline | inlineCall | numberBrand | typeParameter
  | typeParameterDefault
deriving DecidableEq, Repr

/-- Numeric code of an opcode (spec §6 order, starting at 0). -/
def oc : ReflectionOp → Int
  | .string => 0 | .number => 1 | .boolean => 2 | .bigint => 3 | .void => 4
  | .unknown => 5 | .object => 6 | .never => 7 | .undefined => 8
  | .symbol => 9 | .null => 10 | .any => 11 | .literal => 12
  | .templateLiteral => 13 | .regexp => 14 | .date => 15 | .uint8Array => 16
  | .int8Array => 17 | .uint8ClampedArray => 18 | .uint16Array => 19
  | .int16Array => 20 | .uint32Array => 21 | .int32Array => 22
  | .float32Array => 23 | .float64Array => 24 | .bigInt64Array => 25
  | .arrayBuffer => 26 | .classOp => 27 | .parameter => 28
  | .classReference => 29 | .enum => 30 | .enumMember => 31 | .tuple => 32
  | .tupleMember => 33 | .namedTupleMember => 34 | .rest => 35 | .set => 36
  | .map => 37 | .promise => 38 | .union => 39 | .intersection => 40
  | .functionOp => 41 | .array => 42 | .property => 43
  | .propertySignature => 44 | .method => 45 | .methodSignature => 46
  | .optional => 47 | .readonly => 48 | .publicOp => 49 | .protectedOp => 50
  | .privateOp => 51 | .abstract => 52 | .defaultValue => 53
  | .description => 54 | .indexSignature => 55 | .objectLiteral => 56
  | .distribute => 57 | .condition => 58 | .jumpCondition => 59
  | .infer => 60 | .extendsOp => 61 | .indexAccess => 62 | .typeof => 63
  | .keyof => 64 | .var => 65 | .mappedType => 66 | .loads => 67
  | .arg => 68 | .returnOp => 69 | .frame => 70 | .moveFrame => 71
  | .jump => 72 | .call => 73 | .inline => 74 | .inlineCall => 75
  | .numberBrand => 76 | .typeParameter => 77 | .typeParameterDefault => 78

/-- Decoding of a numeric opcode; any number outside the enumeration decodes
to `none`, and the interpreter's switch (which has no default branch) then
falls through, silently skipping the opcode. -/
def decodeOp (n : Int) : Option ReflectionOp :=
  if n = 0 then some .string else if n = 1 then some .number
  else if n = 2 then some .boolean else if n = 3 then some .bigint
  else if n = 4 then some .void else if n = 5 then some .unknown
  else if n = 6 then some .object else if n = 7 then some .never
  else if n = 8 then some .undefined else if n = 9 then some .symbol
  else if n = 10 then some .null else if n = 11 then some .any
  else if n = 12 then some .literal else if n = 13 then some .templateLiteral
  else if n = 14 then some .regexp else if n = 15 then some .date
  else if n = 16 then some .uint8Array else if n = 17 then some .int8Array
  else if n = 18 then some .uint8ClampedArray
  else if n = 19 then some .uint16Array else if n = 20 then some .int16Array
  else if n = 21 then some .uint32Array else if n = 22 then some .int32Array
  else if n = 23 then some .float32Array
  else if n = 24 then some .float64Array
  else if n = 25 then some .bigInt64Array
  else if n = 26 then some .arrayBuffer else if n = 27 then some .classOp
  else if n = 28 then some .parameter
  else if n = 29 then some .classReference else if n = 30 then some .enum
  else if n = 31 then some .enumMember else if n = 32 then some .tuple
  else if n = 33 then some .tupleMember
  else if n = 34 then some .namedTupleMember else if n = 35 then some .rest
  else if n = 36 then some .set else if n = 37 then some .map
  else if n = 38 then some .promise else if n = 39 then some .union
  else if n = 40 then some .intersection
  else if n = 41 then some .functionOp else if n = 42 then some .array
  else if n = 43 then some .property
  else if n = 44 then some .propertySignature
  else if n = 45 then some .method else if n = 46 then some .methodSignature
  else if n = 47 then some .optional else if n = 48 then some .readonly
  else if n = 49 then some .publicOp else if n = 50 then some .protectedOp
  else if n = 51 then some .privateOp else if n = 52 then some .abstract
  else if n = 53 then some .defaultValue else if n = 54 then some .description
  else if n = 55 then some .indexSignature
  else if n = 56 then some .objectLiteral
  else if n = 57 then some .distribute else if n = 58 then some .condition
  else if n = 59 then some .jumpCondition else if n = 60 then some .infer
  else if n = 61 then some .extendsOp else if n = 62 then some .indexAccess
  else if n = 63 then some .typeof else if n = 64 then some .keyof
  else if n = 65 then some .var else if n = 66 then some .mappedType
  else if n = 67 then some .loads else if n = 68 then some .arg
  else if n = 69 then some .returnOp else if n = 70 then some .frame
  else if n = 71 then some .moveFrame else if n = 72 then some .jump
  else if n = 73 then some .call else if n = 74 then some .inline
  else if n = 75 then some .inlineCall else if n = 76 then some .numberBrand
  else if n = 77 then some .typeParameter
  else if n = 78 then some .typeParameterDefault
  else none


/-- Loop cursor state (source class `Loop`, lines 148-163): the member list
it iterates and the current position `i`. -/
structure LoopS where
  types : List Entry
  i : Nat
deriving Repr

/-- Loop construction: a union fans out to its members, any other value
iterates once (`new Loop(fromType)`). -/
def mkLoop (fromType : Entry) : LoopS :=
  match fromType with
  | .ty (.union ts) => { types := ts.map .ty, i := 0 }
  | e => { types := [e], i := 0 }

/-- `Loop.next()`: the entry at the cursor (or `none` when exhausted) and the
advanced cursor. -/
def LoopS.next (l : LoopS) : Option Entry × LoopS :=
  (l.types.get? l.i, { l with i := l.i + 1 })

/-- A call frame (source interface `Frame`); the `previous` pointer lives in
`MState.frames`, and the source's `variables` counter is named `vars` here
because `variables` is a reserved token in Lean. -/
structure FrameData where
  index : Nat
  startIndex : Int
  vars : Nat
  inputs : List Entry
  mappedType : Option LoopS
  distributiveLoop : Option LoopS
deriving Repr

/-- One slot of the operand stack.  The JS array is pre-sized to 128 `never`
nodes and grows beyond; reading an unwritten slot below 128 yields such a
`never` node, reading beyond the array yields `undefined`.  (A negative JS
index is a string-keyed property; no modelled execution writes one, and
reading yields `undefined`.) -/
def stackRead (s : List Entry) (i : Int) : Entry :=
  if i < 0 then .undefV
  else if i.toNat < s.length then s.getD i.toNat .undefV
  else if i < 128 then .ty .never
  else .undefV

/-- Writing one stack slot (`this.stack[i] = e`), padding any skipped slots
the way the pre-sized JS array would present them. -/
def stackWrite (s : List Entry) (i : Int) (e : Entry) : List Entry :=
  if i < 0 then s
  else
    let n := i.toNat
    if n < s.length then s.set n e
    else
      s ++ (List.range (n - s.length)).map
        (fun k => if s.length + k < 128 then Entry.ty .never else .undefV) ++ [e]

/-- The processor state: operand stack, stack pointer (initially −1; the JS
array is pre-sized with 128 `never` nodes, which `stackRead` supplies for
slots beyond the written region), current frame plus the chain of
previous frames (innermost first), program counter, and the `anchored` flag
recording whether the final opcode performed the result-anchor assignment
`Object.assign(this.resultType, t)`. -/
structure MState where
  stack : List Entry
  stackPointer : Int
  frame : FrameData
  frames : List FrameData
  program : Int
  anchored : Bool

/-- Write one stack slot (`this.stack[i] = e`). -/
def MState.write (st : MState) (i : Int) (e : Entry) : MState :=
  { st with stack := stackWrite st.stack i e }

/-- Processor.push (source lines 949-951). -/
def MState.push (st : MState) (e : Entry) : MState :=
  { st with
    stack := stackWrite st.stack (st.stackPointer + 1) e,
    stackPointer := st.stackPointer + 1 }

/-- Processor.pop (source lines 953-956); `none` models the
`throw new Error('Stack empty')` on underflow. -/
def MState.pop (st : MState) : Option (Entry × MState) :=
  if st.stackPointer < 0 then none
  else some (stackRead st.stack st.stackPointer,
             { st with stackPointer := st.stackPointer - 1 })

/-- Processor.pushFrame (source lines 958-966): the new frame's `startIndex`
is the current stack pointer. -/
def MState.pushFrame (st : MState) : MState :=
  { st with
    frame := { index := st.frame.index + 1, startIndex := st.stackPointer,
               vars := 0, inputs := [], mappedType := none,
               distributiveLoop := none },
    frames := st.frame :: st.frames }

/-- Processor.popFrame (source lines 968-973): returns
`stack.slice(startIndex + variables + 1, stackPointer + 1)`, truncates the
stack to `startIndex`, restores the previous frame when there is one. -/
def MState.popFrame (st : MState) : List Entry × MState :=
  let a := st.frame.startIndex + st.frame.vars + 1
  let result := (List.range (st.stackPointer + 1 - a).toNat).map
    (fun k => stackRead st.stack (a + (k : Int)))
  (result,
   { st with stackPointer := st.frame.startIndex,
             frame := st.frames.headD st.frame,
             frames := st.frames.tail })

/-- Processor.call (source lines 978-983): push `program + jumpBackTo` as the
return address, push a frame, and set `program := target − 1` (the for-loop's
increment then lands on `target`). -/
def MState.call (st : MState) (target jumpBackTo : Int) : MState :=
  let st1 := st.push (.num (st.program + jumpBackTo))
  let st2 := st1.pushFrame
  { st2 with program := target - 1 }

/-- Processor.returnFrame (source lines 988-996): pop the return value, read
the return address at `frame.startIndex`, truncate to `startIndex − 1`,
re-push the return value, set `program := returnAddress − 1` when the
address is a number, restore the previous frame. -/
def MState.returnFrame (st : MState) : Option MState :=
  match st.pop with
  | none => none
  | some (returnValue, st1) =>
    let returnAddress := stackRead st1.stack st.frame.startIndex
    let st2 := { st1 with stackPointer := st.frame.startIndex - 1 }
    let st3 := st2.push returnValue
    let st4 :=
      match returnAddress with
      | .num n => { st3 with program := n - 1 }
      | _ => st3
    some { st4 with frame := st4.frames.headD st4.frame, frames := st4.frames.tail }

/-- `initialStack[i]` on the pool array (JS: out-of-range and negative
indexes read `undefined`). -/
def poolGet (pool : List PoolEntry) (i : Int) : Option PoolEntry :=
  if i < 0 then none else pool.get? i.toNat

/-- A pool entry used as a string name (`initialStack[ref] as string`, with
the source's `isFunction(name) ? name() : name` convention for deferred
names).  Any other runtime value is outside the model and coerced to "". -/
def poolString (pool : List PoolEntry) (i : Int) : String :=
  match poolGet pool i with
  | some (.lit (.str s)) => s
  | some (.thunk (.str s)) => s
  | _ => ""

/-- A pool entry used as a literal member name (string / number / symbol),
with the deferred-name convention. -/
def poolName (pool : List PoolEntry) (i : Int) : Lit :=
  match poolGet pool i with
  | some (.lit l) => l
  | some (.thunk l) => l
  | _ => .undefV

/-- `frame.inputs[i]` (JS: out of range reads `undefined`). -/
def inputGet (inputs : List Entry) (i : Nat) : Entry :=
  inputs.getD i .undefV

/-- The `optional` adjective opcode mutating the top-of-stack member (source
line 625).  JS writes the field on whatever object is on top; kinds without
the field are returned unchanged (the write would be unobservable). -/
def Ty.setOptional : Ty → Ty
  | .property n t _ rd ab vis d => .property n t true rd ab vis d
  | .propertySignature n t _ rd d => .propertySignature n t true rd d
  | .methodSignature n ps r _ => .methodSignature n ps r true
  | .tupleMember t _ n => .tupleMember t true n
  | .parameter n t _ rd vis => .parameter n t true rd vis
  | t => t

/-- The `readonly` adjective opcode (source line 628). -/
def Ty.setReadonly : Ty → Ty
  | .property n t o _ ab vis d => .property n t o true ab vis d
  | .propertySignature n t o _ d => .propertySignature n t o true d
  | .parameter n t o _ vis => .parameter n t o true vis
  | t => t

/-- The `public` / `protected` / `private` adjective opcodes (source lines
631-638). -/
def Ty.setVisibility (v : Visibility) : Ty → Ty
  | .property n t o rd ab _ d => .property n t o rd ab (some v) d
  | .method n ps r ab _ => .method n ps r ab (some v)
  | .parameter n t o rd _ => .parameter n t o rd (some v)
  | t => t

/-- The `abstract` adjective opcode (source line 640). -/
def Ty.setAbstract : Ty → Ty
  | .property n t o rd _ vis d => .property n t o rd true vis d
  | .method n ps r _ vis => .method n ps r true vis
  | t => t

/-- The `defaultValue` opcode (source line 643) stores a default thunk on the
top member; the model keeps the thunk's literal value and only on enum
members (the only place the processor later invokes it; the diagnostic
`default` field of properties is not modelled). -/
def Ty.setDefault (l : Option Lit) : Ty → Ty
  | .enumMember n _ => .enumMember n l
  | t => t

/-- The `description` opcode (source line 646). -/
def Ty.setDescription (s : String) : Ty → Ty
  | .property n t o rd ab vis _ => .property n t o rd ab vis (some s)
  | .propertySignature n t o rd _ => .propertySignature n t o rd (some s)
  | t => t

/-- Member scan of the `class` opcode (source line 346): the first member
that is a method named `constructor`. -/
def isConstructorMember : Ty → Bool
  | .method (.str n) _ _ _ _ => n == "constructor"
  | _ => false

/-- Projection of one constructor parameter (source lines 347-359): only
parameters carrying a visibility modifier yield a synthetic property, with
name, type, visibility, optional and readonly carried over. -/
def parameterToProperty : Ty → Option Ty
  | .parameter name ty opt rd (some vis) =>
    some (.property (.str name) ty opt rd false (some vis) none)
  | _ => none

/-- The member-list transformation of the `class` opcode (source lines
345-363): the projected properties of the first constructor are appended to
the member list (`types.push(property)`), then the scan breaks. -/
def classApplyConstructorProjection (types : List Ty) : List Ty :=
  match types.find? isConstructorMember with
  | some (.method _ params _ _ _) => types ++ params.filterMap parameterToProperty
  | _ => types

/-- Member kind test used by the `property` reduction (source line 585). -/
def isUndefinedTy : Ty → Bool
  | .undefined => true
  | _ => false

/-- Member kind test used by the `property` reduction (source line 586): the
carried member must be neither `null` nor `undefined`. -/
def isNullOrUndefinedTy : Ty → Bool
  | .null => true
  | .undefined => true
  | _ => false

/-- The optional-reduction of the `property` / `propertySignature` opcodes
(source lines 584-591): only a two-element union that has an `undefined`
member and a member that is neither `null` nor `undefined` is reduced (to
the first such member), marking the property optional. -/
def propertyReduce (t : Ty) : Ty × Bool :=
  match t with
  | .union ts =>
    if ts.length = 2 then
      match ts.find? isUndefinedTy, ts.find? (fun v => !isNullOrUndefinedTy v) with
      | some _, some restType => (restType, true)
      | _, _ => (t, false)
    else (t, false)
  | _ => (t, false)

/-- The member-name enumeration of the `keyof` opcode (source lines 775-783):
property/propertySignature and method/methodSignature names become literal
types, anything else (index signatures in particular) is skipped. -/
def keyofMemberNames (members : List Ty) : List Ty :=
  members.filterMap (fun m =>
    match m with
    | .propertySignature n _ _ _ _ => some (.literal n)
    | .property n _ _ _ _ _ _ => some (.literal n)
    | .methodSignature n _ _ _ => some (.literal n)
    | .method n _ _ _ _ => some (.literal n)
    | _ => none)

/-- The union pushed by the `keyof` opcode (source lines 771-784): member
names for object literals and classes, the empty union for every other
kind.  (The source pushes the union object first and then fills its `types`
in place; after the opcode completes this is observationally the same.) -/
def keyofResult (t : Ty) : Ty :=
  match t with
  | .objectLiteral ms => .union (keyofMemberNames ms)
  | .classT _ ms _ => .union (keyofMemberNames ms)
  | _ => .union []

/-- The enum-table construction of the `enum` opcode (source lines 390-404):
explicit defaults are used as given, a numeric default re-seeds the
auto-increment counter, members without a default auto-increment.  Entries
that are not enum members are skipped (JS would produce garbage keys; no
emitted program does this). -/
def buildEnum (types : List Ty) : List (String × Lit) :=
  (types.foldl
    (fun (acc : List (String × Lit) × Int) t =>
      match t with
      | .enumMember name (some d) =>
        (acc.1 ++ [(name, d)],
         match d with
         | .num v => v + 1
         | _ => acc.2)
      | .enumMember name none => (acc.1 ++ [(name, .num acc.2)], acc.2 + 1)
      | _ => acc)
    ([], 0)).1

/-- The member normalization of the `tuple` opcode (source lines 417-432):
non-members are wrapped as tuple members, and a rest whose inner type is a
tuple is spliced in place. -/
def tupleFlatten (stackTypes : List Ty) : List Ty :=
  stackTypes.foldl
    (fun types type_ =>
      let resolved : Ty :=
        match type_ with
        | .tupleMember t o n => .tupleMember t o n
        | t => .tupleMember t false none
      match resolved with
      | .tupleMember (.rest (.tuple subs)) _ _ => types ++ subs
      | r => types ++ [r]) []

/-- Kinds the `intersection` opcode treats as the primitive winner besides
`isPrimitive` (source line 522): arrays, tuples, regexp and symbol. -/
def isArrTupleRegSym : Ty → Bool
  | .array _ => true
  | .tuple _ => true
  | .regexp => true
  | .symbol => true
  | _ => false

/- extractTypes of the `intersection` opcode (source lines 504-530),
accumulating merge candidates (in order) and the last primitive seen.
`never` members are skipped and nested intersections are inlined.  The
decorator predicates (`typeDecorators`, reflection/type.ts, not under src/)
are modelled from the spec as an externally-registered set recognizing none
of the modelled types, so no member is diverted into the decorator list. -/
mutual

/-- extractTypes over a member list (see the comment above). -/
def extractIntersection (types : List Ty) (acc : List Ty × Option Ty) :
    List Ty × Option Ty :=
  match types with
  | [] => acc
  | t :: rest => extractIntersection rest (extractIntersectionOne t acc)

/-- Classification of one intersection member (the body of the extractTypes
loop). -/
def extractIntersectionOne (t : Ty) (acc : List Ty × Option Ty) :
    List Ty × Option Ty :=
  match t with
  | .never => acc
  | .intersection inner => extractIntersection inner acc
  | _ =>
    if isPrimitiveTy t || isArrTupleRegSym t then (acc.1, some t)
    else
      match t with
      | .objectLiteral _ => (acc.1 ++ [t], acc.2)
      | .classT _ _ _ => (acc.1 ++ [t], acc.2)
      | _ => acc

end

/-- The result selection of the `intersection` opcode (source lines 534-561),
with the annotation bookkeeping (`annotations`, `decorators`) not modelled:
a primitive wins outright; otherwise a single candidate is used as is, and
several candidates merge structurally. -/
def intersectionResult (types : List Ty) : Ty :=
  let (candidates, primitive) := extractIntersection types ([], none)
  match primitive with
  | some p => p
  | none =>
    match candidates with
    | [c] => c
    | [] => .never
    | cs => mergeTypes cs

/-- Modelled from the spec: the `MappedModifier` bit flags of
reflection/type.ts (not under src/): optional, removeOptional, readonly,
removeReadonly. -/
def MappedModifier.optional : Nat := 1
def MappedModifier.removeOptional : Nat := 2
def MappedModifier.readonly : Nat := 4
def MappedModifier.removeReadonly : Nat := 8

/-- The modifier application of the `mappedType` opcode (source lines
813-826) on a property / property signature. -/
def applyMappedModifier (modifier : Int) (p : Ty) : Ty :=
  if modifier = 0 then p
  else
    let m := modifier.toNat
    let p1 := if m &&& MappedModifier.optional != 0 then p.setOptional else p
    let p2 :=
      if m &&& MappedModifier.removeOptional != 0 then
        match p1 with
        | .property n t _ rd ab vis d => .property n t false rd ab vis d
        | .propertySignature n t _ rd d => .propertySignature n t false rd d
        | t => t
      else p1
    let p3 := if m &&& MappedModifier.readonly != 0 then p2.setReadonly else p2
    if m &&& MappedModifier.removeReadonly != 0 then
      match p3 with
      | .property n t o _ ab vis d => .property n t o false ab vis d
      | .propertySignature n t o _ d => .propertySignature n t o false d
      | t => t
    else p3


/-- Whether the type of a produced mapped-type member is `never` (source line
810: such members are filtered out). -/
def memberTypeIsNever : Ty → Bool
  | .propertySignature _ t _ _ _ => (match t with | .never => true | _ => false)
  | .property _ t _ _ _ _ _ => (match t with | .never => true | _ => false)
  | _ => false

/-- Adjective opcodes mutate the member on top of the stack in place; a
non-type on top is left unchanged (no emitted program puts one there). -/
def MState.mutateTop (st : MState) (f : Ty → Ty) : MState :=
  match stackRead st.stack st.stackPointer with
  | .ty t => st.write st.stackPointer (.ty (f t))
  | _ => st

/-- The entry on top of the stack. -/
def MState.top (st : MState) : Entry := stackRead st.stack st.stackPointer

/-- Outcome of a complete `run`: the final entry together with the
`anchored` flag (whether the result is the processor's `resultType` object),
or one of the failure modes — `stackEmpty` models the
`throw new Error('Stack empty')` of `Processor.pop`, `unmodelled` marks
executions that escape the model (invoking external thunks, reading a
missing opcode parameter, walking past the end of the frame chain), and
`outOfFuel` marks runs that exceed the step budget. -/
inductive RunOutcome where
  | ok (result : Entry) (anchored : Bool)
  | stackEmpty
  | unmodelled
  | outOfFuel
deriving Repr

/-- Result of executing one opcode. -/
inductive StepRes where
  | next (st : MState)
  | done (o : RunOutcome)

/-- `ops[i]` (negative or out-of-range indexes read `undefined` in JS; the
switch then matches no case). -/
def opAt (ops : List Int) (i : Int) : Option Int :=
  if i < 0 then none else ops.get? i.toNat

/-- The processor state at the start of `run` (source lines 195-207): the
literal pool is copied into the stack slots (the stack is pre-sized to 128
`never` nodes), the stack pointer is `pool.length − 1` and the initial frame
starts there, carrying the top-level type arguments as inputs. -/
def initState (pool : List PoolEntry) (inputs : List Entry) : MState where
  stack := pool.map PoolEntry.toEntry
  stackPointer := (pool.length : Int) - 1
  frame := { index := 0, startIndex := (pool.length : Int) - 1, vars := 0,
             inputs := inputs, mappedType := none, distributiveLoop := none }
  frames := []
  program := 0
  anchored := false

/-- Input collection of the `inlineCall` opcode (source lines 912-917): pop
`argumentSize` entries; a popped `never` falls back to the caller's
`initialInputs[i]` when that is truthy; `unshift` makes the deepest-stacked
argument come first. -/
def collectInlineInputs (inputs0 : List Entry) (k : Nat) (st : MState) (i : Nat) :
    Option (List Entry × MState) :=
  match k with
  | 0 => some ([], st)
  | k' + 1 =>
    match st.pop with
    | none => none
    | some (e, st1) =>
      let e' :=
        match e with
        | .ty .never => if entryTruthy (inputGet inputs0 i) then inputGet inputs0 i else e
        | _ => e
      match collectInlineInputs inputs0 k' st1 (i + 1) with
      | none => none
      | some (rest, st2) => some (rest ++ [e'], st2)

set_option maxHeartbeats 1000000

/-- One iteration of the switch of `Processor.run` (source lines 210-943):
execute the opcode at `st.program` — an opcode outside the enumeration falls
through the default-less switch and is skipped — and apply the for-loop
increment `this.program++`.  `nested` performs the nested full evaluations
of the `inline` / `inlineCall` opcodes (a fresh processor running a program
from its initial state).  `selfReg` records whether the
program being executed is registered in the processor registry (the
top-level `resolveRuntimeType` call receives no registry, so its processor
is not; nested re-entrant evaluations are). -/
def step (nested : List Int → List PoolEntry → List Entry → Bool → RunOutcome)
    (ops : List Int) (pool : List PoolEntry)
    (inputs0 : List Entry) (selfReg : Bool) (st : MState) : StepRes :=
  match opAt ops st.program with
  | none => .next { st with program := st.program + 1 }
  | some opn =>
    match decodeOp opn with
    | none => .next { st with program := st.program + 1 }
    | some op =>
      let fin : MState → StepRes := fun s => .next { s with program := s.program + 1 }
      match op with
      | .string => fin (st.push (.ty .string))
      | .number => fin (st.push (.ty (.number none)))
      | .numberBrand =>
        (match opAt ops (st.program + 1) with
         | none => .done .unmodelled
         | some ref =>
           fin (MState.push { st with program := st.program + 1 } (.ty (.number (some ref)))))
      | .boolean => fin (st.push (.ty .boolean))
      | .void => fin (st.push (.ty .void))
      | .unknown => fin (st.push (.ty .unknown))
      | .object => fin (st.push (.ty .object))
      | .never => fin (st.push (.ty .never))
      | .undefined => fin (st.push (.ty .undefined))
      | .bigint => fin (st.push (.ty .bigint))
      | .symbol => fin (st.push (.ty .symbol))
      | .null => fin (st.push (.ty .null))
      | .any => fin (st.push (.ty .any))
      | .literal =>
        (match opAt ops (st.program + 1) with
         | none => .done .unmodelled
         | some ref =>
           let st1 := { st with program := st.program + 1 }
           match poolGet pool ref with
           | some (.lit l) => fin (st1.push (.ty (.literal l)))
           | none => fin (st1.push (.ty (.literal .undefV)))
           | some _ => .done .unmodelled)
      | .templateLiteral =>
        let (entries, st1) := st.popFrame
        let tys := entries.map entryTy
        let result := unboxUnion (.union ((cartesianCalculate tys).filterMap templateCombine))
        fin (st1.push (.ty result))
      | .date => fin (st.push (.ty (.classT .date [] none)))
      | .uint8Array => fin (st.push (.ty (.classT .uint8Array [] none)))
      | .int8Array => fin (st.push (.ty (.classT .int8Array [] none)))
      | .uint8ClampedArray => fin (st.push (.ty (.classT .uint8ClampedArray [] none)))
      | .uint16Array => fin (st.push (.ty (.classT .uint16Array [] none)))
      | .int16Array => fin (st.push (.ty (.classT .int16Array [] none)))
      | .uint32Array => fin (st.push (.ty (.classT .uint32Array [] none)))
      | .int32Array => fin (st.push (.ty (.classT .int32Array [] none)))
      | .float32Array => fin (st.push (.ty (.classT .float32Array [] none)))
      | .float64Array => fin (st.push (.ty (.classT .float64Array [] none)))
      | .bigInt64Array => fin (st.push (.ty (.classT .bigInt64Array [] none)))
      | .arrayBuffer => fin (st.push (.ty (.classT .arrayBuffer [] none)))
      | .classOp =>
        let (entries, st1) := st.popFrame
        let types := classApplyConstructorProjection (entries.map entryTy)
        let args := st1.frame.inputs.filterMap
          (fun e => match e with | .ty t => some t | _ => none)
        let t : Ty := .classT .object types (if args.isEmpty then none else some args)
        fin { (st1.push (.ty t)) with
              anchored := st1.anchored || (st.program + 1 == (ops.length : Int)) }
      | .parameter =>
        (match opAt ops (st.program + 1) with
         | none => .done .unmodelled
         | some ref =>
           let st1 := { st with program := st.program + 1 }
           match st1.pop with
           | none => .done .stackEmpty
           | some (e, st2) =>
             fin (st2.push (.ty (.parameter (poolString pool ref) (entryTy e) false false none))))
      | .classReference => .done .unmodelled
      | .enum =>
        let (entries, st1) := st.popFrame
        let table := buildEnum (entries.map entryTy)
        fin (st1.push (.ty (.enumT table (table.map Prod.snd))))
      | .enumMember =>
        (match opAt ops (st.program + 1) with
         | none => .done .unmodelled
         | some ref =>
           fin (MState.push { st with program := st.program + 1 }
             (.ty (.enumMember (poolString pool ref) none))))
      | .tuple =>
        let (entries, st1) := st.popFrame
        fin (st1.push (.ty (.tuple (tupleFlatten (entries.map entryTy)))))
      | .tupleMember =>
        (match st.pop with
         | none => .done .stackEmpty
         | some (e, st1) => fin (st1.push (.ty (.tupleMember (entryTy e) false none))))
      | .namedTupleMember =>
        (match opAt ops (st.program + 1) with
         | none => .done .unmodelled
         | some ref =>
           let st1 := { st with program := st.program + 1 }
           match st1.pop with
           | none => .done .stackEmpty
           | some (e, st2) =>
             fin (st2.push (.ty (.tupleMember (entryTy e) false (some (poolString pool ref))))))
      | .rest =>
        (match st.pop with
         | none => .done .stackEmpty
         | some (e, st1) => fin (st1.push (.ty (.rest (entryTy e)))))
      | .regexp => fin (st.push (.ty .regexp))
      | .typeParameter | .typeParameterDefault =>
        (match opAt ops (st.program + 1) with
         | none => .done .unmodelled
         | some nameRef =>
           let st1 := { st with program := st.program + 1 }
           let typeE := inputGet st1.frame.inputs st1.frame.vars
           let st2 := { st1 with frame := { st1.frame with vars := st1.frame.vars + 1 } }
           if op == ReflectionOp.typeParameterDefault then
             match st2.pop with
             | none => .done .stackEmpty
             | some (defaultValue, st3) =>
               match typeE with
               | .undefV =>
                 (match defaultValue with
                  | .undefV => fin (st3.push (.ty (.typeParameter (poolString pool nameRef))))
                  | d => fin (st3.push d))
               | t => fin (st3.push t)
           else
             match typeE with
             | .undefV => fin (st2.push (.ty (.typeParameter (poolString pool nameRef))))
             | t => fin (st2.push t))
      | .set =>
        (match st.pop with
         | none => .done .stackEmpty
         | some (e, st1) => fin (st1.push (.ty (.classT .set [] (some [entryTy e])))))
      | .map =>
        (match st.pop with
         | none => .done .stackEmpty
         | some (value, st1) =>
           match st1.pop with
           | none => .done .stackEmpty
           | some (key, st2) =>
             fin (st2.push (.ty (.classT .map [] (some [entryTy key, entryTy value])))))
      | .promise =>
        (match st.pop with
         | none => .done .stackEmpty
         | some (e, st1) => fin (st1.push (.ty (.promise (entryTy e)))))
      | .union =>
        let (entries, st1) := st.popFrame
        fin (st1.push (.ty (unboxUnion (.union (flattenUnionTypes (entries.map entryTy))))))
      | .intersection =>
        let (entries, st1) := st.popFrame
        fin (st1.push (.ty (intersectionResult (entries.map entryTy))))
      | .functionOp =>
        let (entries, st1) := st.popFrame
        (match opAt ops (st1.program + 1) with
         | none => .done .unmodelled
         | some ref =>
           let st2 := { st1 with program := st1.program + 1 }
           let types := entries.map entryTy
           let name := poolString pool ref
           let ret := types.getLast?.getD .any
           let params := if 1 < types.length then types.dropLast else []
           fin (st2.push (.ty (.functionT (if name == "" then none else some name) params ret))))
      | .array =>
        (match st.pop with
         | none => .done .stackEmpty
         | some (e, st1) => fin (st1.push (.ty (.array (entryTy e)))))
      | .property | .propertySignature =>
        (match opAt ops (st.program + 1) with
         | none => .done .unmodelled
         | some ref =>
           let st1 := { st with program := st.program + 1 }
           match st1.pop with
           | none => .done .stackEmpty
           | some (e, st2) =>
             let name := poolName pool ref
             let reduced := propertyReduce (entryTy e)
             let node : Ty :=
               if op == ReflectionOp.propertySignature then
                 .propertySignature name reduced.1 reduced.2 false none
               else
                 .property name reduced.1 reduced.2 false false (some .vpublic) none
             fin (st2.push (.ty node)))
      | .method | .methodSignature =>
        (match opAt ops (st.program + 1) with
         | none => .done .unmodelled
         | some ref =>
           let st1 := { st with program := st.program + 1 }
           let name := poolName pool ref
           let (entries, st2) := st1.popFrame
           let types := entries.map entryTy
           let ret := types.getLast?.getD .any
           let params := if 1 < types.length then types.dropLast else []
           if op == ReflectionOp.method then
             fin (st2.push (.ty (.method name params ret false (some .vpublic))))
           else
             fin (st2.push (.ty (.methodSignature name params ret false))))
      | .optional => fin (st.mutateTop Ty.setOptional)
      | .readonly => fin (st.mutateTop Ty.setReadonly)
      | .publicOp => fin (st.mutateTop (Ty.setVisibility .vpublic))
      | .protectedOp => fin (st.mutateTop (Ty.setVisibility .vprotected))
      | .privateOp => fin (st.mutateTop (Ty.setVisibility .vprivate))
      | .abstract => fin (st.mutateTop Ty.setAbstract)
      | .defaultValue =>
        (match opAt ops (st.program + 1) with
         | none => .done .unmodelled
         | some ref =>
           let st1 := { st with program := st.program + 1 }
           let l := match poolGet pool ref with
                    | some (.thunk lv) => some lv
                    | _ => none
           fin (st1.mutateTop (Ty.setDefault l)))
      | .description =>
        (match opAt ops (st.program + 1) with
         | none => .done .unmodelled
         | some ref =>
           let st1 := { st with program := st.program + 1 }
           fin (st1.mutateTop (Ty.setDescription (poolString pool ref))))
      | .indexSignature =>
        (match st.pop with
         | none => .done .stackEmpty
         | some (ty_, st1) =>
           match st1.pop with
           | none => .done .stackEmpty
           | some (index, st2) =>
             fin (st2.push (.ty (.indexSignature (entryTy index) (entryTy ty_)))))
      | .objectLiteral =>
        let (entries, st1) := st.popFrame
        let t : Ty := .objectLiteral (entries.map entryTy)
        fin { (st1.push (.ty t)) with
              anchored := st1.anchored || (st.program + 1 == (ops.length : Int)) }
      | .distribute =>
        (match opAt ops (st.program + 1) with
         | none => .done .unmodelled
         | some prog =>
           let st1 := { st with program := st.program + 1 }
           let acc? : Option MState :=
             match st1.frame.distributiveLoop with
             | some _ =>
               (match st1.pop with
                | none => none
                | some (e, st2) =>
                  (match e with
                   | .ty .never => some st2
                   | _ => some (st2.push e)))
             | none =>
               (match st1.pop with
                | none => none
                | some (e, st2) =>
                  some { st2 with
                         frame := { st2.frame with distributiveLoop := some (mkLoop e) } })
           match acc? with
           | none => .done .stackEmpty
           | some st2 =>
             match st2.frame.distributiveLoop with
             | none => .done .unmodelled
             | some loop =>
               let nl := loop.next
               let st3 := { st2 with
                            frame := { st2.frame with distributiveLoop := some nl.2 } }
               match nl.1 with
               | none =>
                 let (entries, st4) := st3.popFrame
                 fin (st4.push
                   (.ty (unboxUnion (.union (flattenUnionTypes (entries.map entryTy))))))
               | some nextE =>
                 let st4 := st3.write (st3.frame.startIndex + 1) nextE
                 fin (st4.call prog (-1)))
      | .condition =>
        (match st.pop with
         | none => .done .stackEmpty
         | some (right, st1) =>
           match st1.pop with
           | none => .done .stackEmpty
           | some (left, st2) =>
             match st2.pop with
             | none => .done .stackEmpty
             | some (condition, st3) =>
               let st4 := (st3.popFrame).2
               fin (st4.push (if entryTruthy condition then left else right)))
      | .jumpCondition =>
        (match opAt ops (st.program + 1), opAt ops (st.program + 2) with
         | some leftProgram, some rightProgram =>
           let st1 := { st with program := st.program + 2 }
           (match st1.pop with
            | none => .done .stackEmpty
            | some (condition, st2) =>
              fin (st2.call (if entryTruthy condition then leftProgram else rightProgram) 1))
         | _, _ => .done .unmodelled)
      | .infer =>
        (match opAt ops (st.program + 1), opAt ops (st.program + 2) with
         | some frameOffset, some stackEntryIndex =>
           fin (MState.push { st with program := st.program + 2 }
             (.ty (.infer frameOffset stackEntryIndex)))
         | _, _ => .done .unmodelled)
      | .extendsOp =>
        (match st.pop with
         | none => .done .stackEmpty
         | some (right, st1) =>
           match st1.pop with
           | none => .done .stackEmpty
           | some (left, st2) =>
             fin (st2.push (.bool (isExtendable (entryTy left) (entryTy right)))))
      | .indexAccess =>
        (match st.pop with
         | none => .done .stackEmpty
         | some (right, st1) =>
           match st1.pop with
           | none => .done .stackEmpty
           | some (left, st2) =>
             if isTypeE left then
               fin (st2.push (.ty (indexAccessT (entryTy left) (entryTy right))))
             else fin (st2.push (.ty .never)))
      | .typeof => .done .unmodelled
      | .keyof =>
        (match st.pop with
         | none => .done .stackEmpty
         | some (e, st1) => fin (st1.push (.ty (keyofResult (entryTy e)))))
      | .var =>
        let st1 := st.push (.ty .never)
        fin { st1 with frame := { st1.frame with vars := st1.frame.vars + 1 } }
      | .mappedType =>
        (match opAt ops (st.program + 1), opAt ops (st.program + 2) with
         | some functionPointer, some modifier =>
           let st1 := { st with program := st.program + 2 }
           let cont : MState → StepRes := fun stA =>
             match stA.frame.mappedType with
             | none => .done .unmodelled
             | some loop =>
               let nl := loop.next
               let stB := { stA with frame := { stA.frame with mappedType := some nl.2 } }
               match nl.1 with
               | none =>
                 let (entries, stC) := stB.popFrame
                 fin (stC.push (.ty (.objectLiteral (entries.map entryTy))))
               | some nextE =>
                 let stC := stB.write (stB.frame.startIndex + 1) nextE
                 fin (stC.call functionPointer (-2))
           (match st1.frame.mappedType with
            | some _ =>
              (match st1.pop with
               | none => .done .stackEmpty
               | some (e, st2) =>
                 let t := entryTy e
                 let iTy := entryTy (stackRead st2.stack (st2.frame.startIndex + 1))
                 match iTy with
                 | .string => cont (st2.push (.ty (.indexSignature iTy t)))
                 | .number b => cont (st2.push (.ty (.indexSignature (.number b) t)))
                 | .symbol => cont (st2.push (.ty (.indexSignature iTy t)))
                 | _ =>
                   let nameLit := match iTy with
                                  | .literal l => l
                                  | _ => .undefV
                   let property : Ty :=
                     match t with
                     | .propertySignature n tt o rd d => .propertySignature n tt o rd d
                     | .property n tt o rd ab vis d => .property n tt o rd ab vis d
                     | _ => .propertySignature nameLit t false false none
                   if memberTypeIsNever property then cont st2
                   else cont (st2.push (.ty (applyMappedModifier modifier property))))
            | none =>
              (match st1.pop with
               | none => .done .stackEmpty
               | some (e, st2) =>
                 cont { st2 with frame := { st2.frame with mappedType := some (mkLoop e) } }))
         | _, _ => .done .unmodelled)
      | .loads =>
        (match opAt ops (st.program + 1), opAt ops (st.program + 2) with
         | some frameOffset, some stackEntryIndex =>
           let st1 := { st with program := st.program + 2 }
           let target? := if frameOffset ≤ 0 then some st1.frame
                          else st1.frames.get? (frameOffset.toNat - 1)
           (match target? with
            | none => .done .unmodelled
            | some f =>
              fin (st1.push (stackRead st1.stack (f.startIndex + 1 + stackEntryIndex))))
         | _, _ => .done .unmodelled)
      | .arg =>
        (match opAt ops (st.program + 1) with
         | none => .done .unmodelled
         | some n =>
           let st1 := { st with program := st.program + 1 }
           fin (st1.push (stackRead st1.stack (st1.frame.startIndex - n))))
      | .returnOp =>
        (match st.returnFrame with
         | none => .done .stackEmpty
         | some st1 => fin st1)
      | .frame => fin st.pushFrame
      | .moveFrame =>
        (match st.pop with
         | none => .done .stackEmpty
         | some (e, st1) =>
           let st2 := (st1.popFrame).2
           if entryTruthy e then fin (st2.push e) else fin st2)
      | .jump =>
        (match opAt ops (st.program + 1) with
         | none => .done .unmodelled
         | some arg =>
           fin { st with program := arg - 1 })
      | .call =>
        (match opAt ops (st.program + 1) with
         | none => .done .unmodelled
         | some target =>
           fin (MState.call { st with program := st.program + 1 } target 1))
      | .inline =>
        (match opAt ops (st.program + 1) with
         | none => .done .unmodelled
         | some ref =>
           let st1 := { st with program := st.program + 1 }
           match poolGet pool ref with
           | some (.lit (.num _)) => fin (st1.push (.ty .selfRef))
           | some .packedSelf =>
             if selfReg then fin (st1.push (.ty .selfRef))
             else
               (match nested ops pool [] true with
                | .ok e _ => fin (st1.push e)
                | o => .done o)
           | _ => .done .unmodelled)
      | .inlineCall =>
        (match opAt ops (st.program + 1), opAt ops (st.program + 2) with
         | some ref, some argumentSize =>
           let st1 := { st with program := st.program + 2 }
           (match collectInlineInputs inputs0 argumentSize.toNat st1 0 with
            | none => .done .stackEmpty
            | some (inputsNew, st2) =>
              match poolGet pool ref with
              | some (.lit (.num _)) =>
                if argumentSize == 0 then fin (st2.push (.ty .selfRef))
                else
                  (match nested ops pool inputsNew selfReg with
                   | .ok e _ => fin (st2.push e)
                   | o => .done o)
              | some .packedSelf =>
                (match nested ops pool inputsNew selfReg with
                 | .ok e _ => fin (st2.push e)
                 | o => .done o)
              | _ => .done .unmodelled)
         | _, _ => .done .unmodelled)

/-- The for-loop of `Processor.run` (source lines 209-944), indexed by fuel.
When the program counter leaves the opcode array, the entry on top of the
stack — through `narrowOriginalLiteral` when it is a type (source line
946) — is the result, paired with the `anchored` flag. -/
def runLoop : Nat → List Int → List PoolEntry → List Entry → Bool → MState → RunOutcome
  | 0, _, _, _, _, _ => .outOfFuel
  | fuel' + 1, ops, pool, inputs0, selfReg, st =>
    if st.program < (ops.length : Int) then
      match step (fun o p i s => runLoop fuel' o p i s (initState p i))
              ops pool inputs0 selfReg st with
      | .next st' => runLoop fuel' ops pool inputs0 selfReg st'
      | .done o => o
    else
      .ok (match stackRead st.stack st.stackPointer with
           | .ty t => .ty (narrowOriginalLiteral t)
           | e => e) st.anchored

/-- A complete evaluation of a decoded program: `Processor.run(ops, pool
entries, inputs)`. -/
def runModel (fuel : Nat) (ops : List Int) (pool : List PoolEntry)
    (inputs : List Entry) (selfReg : Bool) : RunOutcome :=
  runLoop fuel ops pool inputs selfReg (initState pool inputs)

/-- resolveRuntimeType on a packed program (source lines 101-136): unpack and
run.  The top-level call receives no registry, so the processor is not
registered (`selfReg = false`); the `__type` result cache of the handle is
not modelled (every modelled evaluation is a first evaluation). -/
def resolveTypeModel (fuel : Nat) (pack : Packed) (args : List Entry) : RunOutcome :=
  let ps := unpack pack
  runModel fuel ps.ops ps.stack args false


/-! Shared helper predicates, projections and lemmas used by the claim
theorems below. -/

/-- A union node with exactly one member (the shape single-member unboxing is
about). -/
def isSingletonUnion : Ty → Bool
  | .union ts => ts.length == 1
  | _ => false

/-- Union or never (the kinds `flattenUnionTypes` removes). -/
def isUnionOrNever : Ty → Bool
  | .union _ => true
  | .never => true
  | _ => false

/-- Kind test for the `keyof` opcode's enumerating branch. -/
def isObjectLiteralOrClass : Ty → Bool
  | .objectLiteral _ => true
  | .classT _ _ _ => true
  | _ => false

/-- A nested evaluator that runs nothing (only the `inline` / `inlineCall`
opcodes consult it). -/
def noNested : List Int → List PoolEntry → List Entry → Bool → RunOutcome :=
  fun _ _ _ _ => .outOfFuel

/-- Top of stack after one step (`none` when the step ends the run). -/
def stepTopE (ops : List Int) (pool : List PoolEntry) (inputs0 : List Entry)
    (st : MState) : Option Entry :=
  match step noNested ops pool inputs0 false st with
  | .next st' => some st'.top
  | .done _ => none

/-- Local-variable counter of the current frame after one step. -/
def stepVars (ops : List Int) (pool : List PoolEntry) (inputs0 : List Entry)
    (st : MState) : Option Nat :=
  match step noNested ops pool inputs0 false st with
  | .next st' => some st'.frame.vars
  | .done _ => none

/-- Stack pointer after one step. -/
def stepSP (ops : List Int) (pool : List PoolEntry) (inputs0 : List Entry)
    (st : MState) : Option Int :=
  match step noNested ops pool inputs0 false st with
  | .next st' => some st'.stackPointer
  | .done _ => none

/-- Program counter after one step (the opcode executed next). -/
def stepProg (ops : List Int) (pool : List PoolEntry) (inputs0 : List Entry)
    (st : MState) : Option Int :=
  match step noNested ops pool inputs0 false st with
  | .next st' => some st'.program
  | .done _ => none

/-- Non-termination of a packed-program resolution: every fuel budget is
exhausted. -/
def resolveDiverges (pack : Packed) (args : List Entry) : Prop :=
  ∀ fuel, resolveTypeModel fuel pack args = .outOfFuel

mutual

/-- Members produced by `flattenUnionTypes` are never unions or `never`
(they were inlined resp. dropped). -/
theorem mem_flattenUnionTypes (ts : List Ty) :
    ∀ t ∈ flattenUnionTypes ts, isUnionOrNever t = false := by
  match ts with
  | [] => simp [flattenUnionTypes]
  | t0 :: rest =>
    intro t ht
    rw [flattenUnionTypes] at ht
    rcases List.mem_append.mp ht with h | h
    · exact mem_flattenOne t0 t h
    · exact mem_flattenUnionTypes rest t h

/-- Members produced by `flattenOne` are never unions or `never`. -/
theorem mem_flattenOne (t0 : Ty) :
    ∀ t ∈ flattenOne t0, isUnionOrNever t = false := by
  cases t0 <;>
    first
      | (intro t ht
         rw [flattenOne] at ht
         exact mem_flattenUnionTypes _ t ht)
      | simp [flattenOne, isUnionOrNever]

end

theorem unbox_not_singleton (ms : List Ty)
    (h : ∀ t ∈ ms, isUnionOrNever t = false) :
    isSingletonUnion (unboxUnion (.union ms)) = false := by
  match ms with
  | [] => rfl
  | [t] =>
    have := h t (by simp)
    cases t <;> simp_all [unboxUnion, isSingletonUnion, isUnionOrNever]
  | t1 :: t2 :: rest =>
    simp [unboxUnion, isSingletonUnion]

/-- If `litOf` yields a literal, the node was one. -/
theorem litOf_some {t : Ty} {l : Lit} (h : Ty.litOf t = some l) : t = Ty.literal l := by
  cases t <;> simp_all [Ty.litOf]

/-- Members of a placeholder-free merged combination are literals (hence in
particular not unions): without a placeholder every item of the combination
was a literal and merging only concatenates literals. -/
theorem mergeComb_false_literal : ∀ (c : List Ty) (tys : List Ty),
    mergeComb c = (tys, false) → ∀ t ∈ tys, isUnionOrNever t = false := by
  intro c
  induction c with
  | nil =>
    intro tys h t ht
    cases h
    simp at ht
  | cons t0 rest ih =>
    intro tys h t ht
    rcases hmr : mergeComb rest with ⟨tys', hp'⟩
    rcases hlit : Ty.litOf t0 with _ | l
    · simp only [mergeComb, hmr, hlit] at h
      simp at h
    · rcases htys' : tys' with _ | ⟨th, ttail⟩
      · subst htys'
        simp only [mergeComb, hmr, hlit] at h
        obtain ⟨h1, h2⟩ := Prod.mk.injEq .. ▸ h
        subst h1
        rcases List.mem_singleton.mp ht with rfl
        rfl
      · subst htys'
        rcases hth : Ty.litOf th with _ | l'
        · simp only [mergeComb, hmr, hlit, hth] at h
          obtain ⟨h1, h2⟩ := Prod.mk.injEq .. ▸ h
          subst h1; subst h2
          rcases List.mem_cons.mp ht with rfl | ht
          · rfl
          · exact ih _ hmr t ht
        · simp only [mergeComb, hmr, hlit, hth] at h
          obtain ⟨h1, h2⟩ := Prod.mk.injEq .. ▸ h
          subst h1; subst h2
          rcases List.mem_cons.mp ht with rfl | ht
          · rfl
          · exact ih _ hmr t (List.mem_cons_of_mem _ ht)

/-- A combination's contribution to the union built by `templateLiteral` is
never a union node (a template-literal node, a `string` node, or a merged
literal). -/
theorem templateCombine_not_union (c : List Ty) (t : Ty)
    (h : templateCombine c = some t) : isUnionOrNever t = false := by
  unfold templateCombine at h
  rcases hmc : mergeComb c with ⟨tys, hp⟩
  rw [hmc] at h
  cases hp with
  | false =>
    rcases tys with _ | ⟨t1, ttail⟩
    · simp at h
    · rcases ttail with _ | ⟨t2, ttail2⟩
      · simp at h
        rcases h with rfl
        exact mergeComb_false_literal c _ hmc _ (List.mem_singleton_self _)
      · simp at h
  | true =>
    simp only at h
    split at h
    · simp only [Option.some.injEq] at h
      subst h
      rfl
    · simp only [Option.some.injEq] at h
      subst h
      rfl

/-- C3: decoding a packed program — when the last element is not a string,
`unpack` returns the empty program (ops = [], pool = []); otherwise the
opcode array maps each character of the final string to its code point
minus 33, and the literal pool is every element before the final string, in
order. -/
theorem c3_unpack_decoder (p : Packed) :
    (∀ s, p.getLast? = some (.lit (.str s)) →
      unpack p = { ops := s.data.map (fun c => (c.toNat : Int) - 33),
                   stack := p.dropLast }) ∧
    ((∀ s, p.getLast? ≠ some (.lit (.str s))) →
      unpack p = { ops := [], stack := [] }) := by
  constructor
  · intro s h
    unfold unpack
    rw [h]
    rfl
  · intro h
    unfold unpack
    rcases hl : p.getLast? with _ | pe
    · rfl
    · rcases pe with l | l | _ | tg
      · rcases l with s | n | b | _
        · exact absurd hl (h s)
        · rfl
        · rfl
        · rfl
      · rfl
      · rfl
      · rfl

/-- C3 witness: a two-element pack decodes its final string "!I" to the
opcodes [0, 40] with the number 7 as the pool; a pack ending in a number
decodes to the empty program. -/
theorem c3_unpack_decoder_witness :
    unpack [PoolEntry.lit (.num 7), PoolEntry.lit (.str "!I")] =
      { ops := [0, 40], stack := [PoolEntry.lit (.num 7)] } ∧
    unpack [PoolEntry.lit (.num 7)] = { ops := [], stack := [] } := by
  constructor
  · rw [(c3_unpack_decoder [PoolEntry.lit (.num 7), PoolEntry.lit (.str "!I")]).1 "!I" rfl]
    decide
  · exact (c3_unpack_decoder [PoolEntry.lit (.num 7)]).2 (fun s => by simp)

/-- C8 counterexample: a completed evaluation whose final returned IR node is
a single-member union.  The program builds the object literal `{a: string}`
(`frame, string, propertySignature "a", objectLiteral`) and ends with
`keyof`, which pushes its union without unboxing: the returned node is
`union [literal "a"]`, a union node with exactly one member. -/
theorem c8_counterexample :
    runModel 50 [70, 0, 44, 0, 56, 64] [.lit (.str "a")] [] false =
      .ok (.ty (.union [.literal (.str "a")])) false ∧
    isSingletonUnion (.union [.literal (.str "a")]) = true :=
  ⟨rfl, rfl⟩

/-- C8 (amended): the `union` opcode pushes
`unboxUnion (union (flattenUnionTypes frame))` — the first clause exhibits
this against the machine step — and that shape, which the exhausted
`distribute` loop also pushes, is never a single-member union (second
clause); the `templateLiteral` opcode unboxes a union of non-union members,
so it cannot push one either (third clause); `keyof` however pushes its
union un-unboxed, and a one-property object literal yields a single-member
union (fourth clause, the counterexample's final node). -/
theorem c8_amended :
    (∀ a b : Ty,
      stepTopE [39] [] []
          ((((initState [] []).pushFrame).push (.ty a)).push (.ty b)) =
        some (.ty (unboxUnion (.union (flattenUnionTypes [a, b]))))) ∧
    (∀ ts : List Ty,
      isSingletonUnion (unboxUnion (.union (flattenUnionTypes ts))) = false) ∧
    (∀ tys : List Ty,
      isSingletonUnion (unboxUnion (.union
        ((cartesianCalculate tys).filterMap templateCombine))) = false) ∧
    keyofResult (.objectLiteral [.propertySignature (.str "a") .string false false none]) =
      .union [.literal (.str "a")] := by
  refine ⟨fun a b => rfl, ?_, ?_, rfl⟩
  · intro ts
    exact unbox_not_singleton _ (mem_flattenUnionTypes ts)
  · intro tys
    apply unbox_not_singleton
    intro t ht
    rcases List.mem_filterMap.mp ht with ⟨c, _, hc⟩
    exact templateCombine_not_union c t hc

/-- C4: the distribute opcode applied to the union 'a' | 'b'; the subprogram
is a conditional `T extends U ? X : Y` that reads the candidate via
`loads 1 0` and returns into the distribute opcode (call-back-offset −1).
(i) With U = string both members take the X branch: the result is the union
of the two per-member results; (ii) with U = 'a' the first member takes X
and the second Y, so the resulting `X | Y` exhibits iteration in the
union's source order; (iii) with Y = never the `never` iteration result is
dropped from the accumulated frame and the single remaining member is
unboxed. -/
theorem c4_distribute :
    (∀ x y : Lit,
      runModel 200 [70, 65, 70, 12, 0, 12, 1, 39, 57, 12, 72, 27, 67, 1, 0,
          0, 61, 59, 21, 24, 69, 12, 2, 69, 12, 3, 69]
        [.lit (.str "a"), .lit (.str "b"), .lit x, .lit y] [] false =
        .ok (.ty (.union [.literal x, .literal x])) false) ∧
    (∀ x y : Lit,
      runModel 200 [70, 65, 70, 12, 0, 12, 1, 39, 57, 12, 72, 28, 67, 1, 0,
          12, 0, 61, 59, 22, 25, 69, 12, 2, 69, 12, 3, 69]
        [.lit (.str "a"), .lit (.str "b"), .lit x, .lit y] [] false =
        .ok (.ty (.union [.literal x, .literal y])) false) ∧
    (∀ x y : Lit,
      runModel 200 [70, 65, 70, 12, 0, 12, 1, 39, 57, 12, 72, 27, 67, 1, 0,
          12, 0, 61, 59, 22, 25, 69, 12, 2, 69, 7, 69]
        [.lit (.str "a"), .lit (.str "b"), .lit x, .lit y] [] false =
        .ok (.ty (.literal x)) false) := by
  have e1 : isExtendable (.literal (.str "a")) .string = true := rfl
  have e2 : isExtendable (.literal (.str "b")) .string = true := rfl
  have e3 : isExtendable (.literal (.str "a")) (.literal (.str "a")) = true := rfl
  have e4 : isExtendable (.literal (.str "b")) (.literal (.str "a")) = false := rfl
  refine ⟨fun x y => ?_, fun x y => ?_, fun x y => ?_⟩ <;>
    simp [runModel, runLoop, step, initState, MState.push, MState.pop, MState.popFrame,
      MState.pushFrame, MState.call, MState.returnFrame, MState.write, MState.mutateTop,
      MState.top, stackRead, stackWrite, opAt, decodeOp, poolGet, poolString, poolName,
      inputGet, entryTy, entryTruthy, isTypeE, PoolEntry.toEntry, flattenUnionTypes,
      flattenOne, unboxUnion, narrowOriginalLiteral, mkLoop, LoopS.next, noNested,
      e1, e2, e3, e4]

theorem stackRead_write_self (s : List Entry) (i : Int) (e : Entry) (h : 0 ≤ i) :
    stackRead (stackWrite s i e) i = e := by
  have h0 : ¬ i < 0 := by omega
  unfold stackWrite
  rw [if_neg h0]
  by_cases hlt : i.toNat < s.length
  · simp only [if_pos hlt]
    unfold stackRead
    rw [if_neg h0, if_pos (by simpa using hlt)]
    simp [List.getD, List.getElem?_set_eq_of_lt, hlt]
  · simp only [if_neg hlt]
    unfold stackRead
    rw [if_neg h0, if_pos (by simp; omega)]
    rw [List.getD, List.get?_eq_getElem?, List.getElem?_append_right (by simp; omega)]
    simp only [List.length_append, List.length_map, List.length_range]
    rw [show i.toNat - (s.length + (i.toNat - s.length)) = 0 from by omega]
    rfl

/-- A read at a non-negative index that returns a number implies the read
was inside the array (stale or live), in particular the index was valid. -/
theorem stackRead_num_nonneg {s : List Entry} {i : Int} {a : Int}
    (h : stackRead s i = .num a) : 0 ≤ i := by
  by_contra h0
  unfold stackRead at h
  rw [if_pos (by omega)] at h
  exact Entry.noConfusion h

/-- C2 counterexample: `Processor.call` pushes the return address and THEN
pushes the frame, so the new frame's `startIndex` is the stack pointer
after the push — the slot holding the return address — not the pre-push
stackPointer the claim states: calling from stackPointer 0 yields
startIndex 1. -/
theorem c2_counterexample :
    ((initState [.lit (.num 5)] []).call 7 1).frame.startIndex ≠
      (initState [.lit (.num 5)] []).stackPointer := by
  decide

/-- C2 (amended): the calling convention.  `call target 1` pushes
`program + 1` onto the stack as the return address, pushes a new frame
whose `startIndex` equals the stack pointer after that push (the slot of
the return address), chains the previous frame, and sets
`program := target − 1` so the for-loop increment makes `target` the next
opcode executed.  A subsequent `returnFrame` pops the return value, reads
the return address stored at `frame.startIndex`, truncates the stack to
`startIndex − 1` and re-pushes the return value (leaving the stack pointer
at `startIndex` with the return value on top), restores the parent frame,
and sets `program := returnAddress − 1` so that execution resumes at the
return address. -/
theorem c2_call_return :
    (∀ (st : MState) (t : Int), -1 ≤ st.stackPointer →
      stackRead (st.call t 1).stack (st.stackPointer + 1) = .num (st.program + 1) ∧
      (st.call t 1).stackPointer = st.stackPointer + 1 ∧
      (st.call t 1).frame.startIndex = st.stackPointer + 1 ∧
      (st.call t 1).frames = st.frame :: st.frames ∧
      (st.call t 1).program = t - 1) ∧
    (∀ (st st3 : MState) (a : Int),
      0 ≤ st.stackPointer →
      stackRead st.stack st.frame.startIndex = .num a →
      st.returnFrame = some st3 →
      st3.stackPointer = st.frame.startIndex ∧
      stackRead st3.stack st3.stackPointer = stackRead st.stack st.stackPointer ∧
      st3.program = a - 1 ∧
      st3.frame = st.frames.headD st.frame ∧
      st3.frames = st.frames.tail) := by
  constructor
  · intro st t hsp
    refine ⟨?_, rfl, rfl, rfl, rfl⟩
    exact stackRead_write_self _ _ _ (by omega)
  · intro st st3 a hsp haddr hret
    have h0 : 0 ≤ st.frame.startIndex := stackRead_num_nonneg haddr
    unfold MState.returnFrame MState.pop at hret
    rw [if_neg (by omega)] at hret
    simp only [haddr] at hret
    rcases Option.some.injEq .. ▸ hret.symm with rfl
    refine ⟨by simp [MState.push], ?_, by simp [MState.push], rfl, rfl⟩
    simp only [MState.push]
    have : st.frame.startIndex - 1 + 1 = st.frame.startIndex := by omega
    rw [this]
    exact stackRead_write_self _ _ _ h0

/-- C2 witness: from the initial state over pool [5] (stackPointer 0,
program 0), calling target 7 stores return address 1 at slot 1; after
pushing a `string` return value, `returnFrame` yields the state with the
return value on top at slot 1 and program counter `1 − 1`. -/
theorem c2_call_return_witness :
    stackRead ((initState [.lit (.num 5)] []).call 7 1).stack
        ((initState [.lit (.num 5)] []).stackPointer + 1) =
      .num ((initState [.lit (.num 5)] []).program + 1) ∧
    (⟨[.num 5, .ty .string, .ty .string], 1,
        ⟨0, 0, 0, [], none, none⟩, [], 0, false⟩ : MState).program = 1 - 1 := by
  have hA := c2_call_return.1 (initState [.lit (.num 5)] []) 7 (by decide)
  have hB := c2_call_return.2 (((initState [.lit (.num 5)] []).call 7 1).push (.ty .string))
    ⟨[.num 5, .ty .string, .ty .string], 1, ⟨0, 0, 0, [], none, none⟩, [], 0, false⟩ 1
    (by decide) rfl rfl
  exact ⟨hA.1, hB.2.2.1⟩

/-- C5 counterexample: `null | undefined` is a two-element union containing
`undefined`, yet the propertySignature opcode does not reduce it — the
reduction also requires a member that is neither `null` nor `undefined` —
so the produced node keeps the whole union as its type with optional unset,
where the claim expects type `null` with optional true. -/
theorem c5_counterexample :
    runModel 50 [70, 10, 8, 39, 44, 0] [.lit (.str "p")] [] false =
      .ok (.ty (.propertySignature (.str "p") (.union [.null, .undefined])
        false false none)) false ∧
    Ty.propertySignature (.str "p") (.union [.null, .undefined]) false false none ≠
      Ty.propertySignature (.str "p") .null true false none := by
  refine ⟨rfl, ?_⟩
  intro h
  simp at h

/-- C5 (amended): the property / propertySignature opcodes build their node
from `propertyReduce` of the popped type (first two clauses, against the
machine step; `property` additionally carries public visibility).
`propertyReduce` strips `undefined` and sets optional exactly when the
popped type is a two-element union containing an `undefined` member
together with a member that is neither `null` nor `undefined` (the first
such member becomes the type, regardless of position); `null | undefined`,
unions of any other length, and non-union types are carried over unchanged
with optional unset. -/
theorem c5_amended :
    (∀ t : Ty,
      stepTopE [44, 0] [.lit (.str "p")] []
          ((initState [.lit (.str "p")] []).push (.ty t)) =
        some (.ty (.propertySignature (.str "p") (propertyReduce t).1
          (propertyReduce t).2 false none))) ∧
    (∀ t : Ty,
      stepTopE [43, 0] [.lit (.str "p")] []
          ((initState [.lit (.str "p")] []).push (.ty t)) =
        some (.ty (.property (.str "p") (propertyReduce t).1
          (propertyReduce t).2 false false (some .vpublic) none))) ∧
    (∀ r : Ty, isNullOrUndefinedTy r = false →
      propertyReduce (.union [r, .undefined]) = (r, true) ∧
      propertyReduce (.union [.undefined, r]) = (r, true)) ∧
    propertyReduce (.union [.null, .undefined]) =
      (.union [.null, .undefined], false) ∧
    (∀ a b c : Ty, propertyReduce (.union [a, b, c]) = (.union [a, b, c], false)) ∧
    (∀ t : Ty, (∀ ts, t ≠ .union ts) → propertyReduce t = (t, false)) := by
  refine ⟨fun t => rfl, fun t => rfl, ?_, rfl, fun a b c => ?_, ?_⟩
  · intro r h
    have hr : isUndefinedTy r = false := by
      cases r <;> simp_all [isUndefinedTy, isNullOrUndefinedTy]
    have h1 : isUndefinedTy Ty.undefined = true := rfl
    have h2 : isNullOrUndefinedTy Ty.undefined = true := rfl
    constructor
    · simp [propertyReduce, List.find?, hr, h, h1, h2]
    · simp [propertyReduce, List.find?, hr, h, h1, h2]
  · simp [propertyReduce]
  · intro t h
    cases t <;> first
      | rfl
      | exact absurd rfl (h _)

/-- C5 witness: a `string | undefined` union reduces to `string` with
optional set; a plain `string` is carried over unchanged. -/
theorem c5_amended_witness :
    propertyReduce (.union [.string, .undefined]) = (.string, true) ∧
    propertyReduce .string = (.string, false) :=
  ⟨(c5_amended.2.2.1 .string (by decide)).1,
   c5_amended.2.2.2.2.2 .string (fun ts => by simp)⟩

theorem c1_loop_diverges : ∀ (fuel : Nat) (st : MState),
    st.program = 0 ∨ st.program = 2 →
    runLoop fuel [74, 0, 72, 0] [.lit (.num 0)] [] false st = .outOfFuel := by
  intro fuel
  induction fuel with
  | zero => intro st _; rfl
  | succ n ih =>
    intro st h
    obtain ⟨stack, sp, fr, frs, prog, anch⟩ := st
    rcases h with h | h <;> simp only at h <;> subst h
    · rw [runLoop]
      norm_num [step, opAt, decodeOp, poolGet, MState.push]
      exact ih _ (Or.inr rfl)
    · rw [runLoop]
      norm_num [step, opAt, decodeOp, MState.push]
      exact ih _ (Or.inl rfl)

/-- C1 counterexample: a packed program that references itself through the
`inline` self-reference sentinel need not terminate — the program
`inline 0; jump 0` (packed as pool entry `0` plus the opcode string) loops
forever, pushing the self-reference anchor on every iteration, so
`resolveRuntimeType` on it diverges for every fuel budget. -/
theorem c1_counterexample :
    resolveDiverges [.lit (.num 0), .lit (.str "k!i!")] [] := by
  intro fuel
  exact c1_loop_diverges fuel _ (Or.inl rfl)

/-- C1 (amended): the self-reference sentinel itself does no re-entrant
resolution — on a numeric pool entry, `inline` (and `inlineCall` with zero
arguments) performs a single push of the result anchor (`selfRef`), moving
the stack pointer up by exactly one; and on a well-founded (tree-shaped)
self-referencing program the resolution completes with the inner
self-reference pointing at the outer result object (`anchored = true`):
the class of an object literal whose `children` member is an array of the
type itself resolves in this way. -/
theorem c1_amended :
    stepTopE [74, 0] [.lit (.num 0)] [] (initState [.lit (.num 0)] []) =
      some (.ty .selfRef) ∧
    stepSP [74, 0] [.lit (.num 0)] [] (initState [.lit (.num 0)] []) =
      some ((initState [.lit (.num 0)] []).stackPointer + 1) ∧
    stepTopE [75, 0, 0] [.lit (.num 0)] [] (initState [.lit (.num 0)] []) =
      some (.ty .selfRef) ∧
    stepSP [75, 0, 0] [.lit (.num 0)] [] (initState [.lit (.num 0)] []) =
      some ((initState [.lit (.num 0)] []).stackPointer + 1) ∧
    resolveTypeModel 50
        [.lit (.num 0), .lit (.str "children"), .lit (.str "gk!KM\"Y")] [] =
      .ok (.ty (.objectLiteral
        [.propertySignature (.str "children") (.array .selfRef) false false none]))
        true := by
  exact ⟨rfl, by decide, rfl, by decide, rfl⟩

/-- C7: the `typeParameter` / `typeParameterDefault` opcodes consume the next
type argument from `frame.inputs` at index `frame.variables`, incrementing
the counter (clauses 1-2); when the input is exhausted, `typeParameter`
pushes a bare `typeParameter` node carrying the pooled name (clause 3);
`typeParameterDefault` first pops the previously pushed default value —
also when an input is available, where the popped default is discarded and
replaced by the input on top of the stack (clauses 4-6) — and uses the
default exactly when the consumed input is undefined (clause 7); when
neither an input nor a default is available it too pushes the bare
`typeParameter` node (clause 8). -/
theorem c7_type_parameters :
    stepTopE [77, 0] [.lit (.str "T")] [.ty .string]
        (initState [.lit (.str "T")] [.ty .string]) = some (.ty .string) ∧
    stepVars [77, 0] [.lit (.str "T")] [.ty .string]
        (initState [.lit (.str "T")] [.ty .string]) = some 1 ∧
    stepTopE [77, 0] [.lit (.str "T")] [] (initState [.lit (.str "T")] []) =
      some (.ty (.typeParameter "T")) ∧
    stepTopE [78, 0] [.lit (.str "T")] [.ty .string]
        ((initState [.lit (.str "T")] [.ty .string]).push (.ty .boolean)) =
      some (.ty .string) ∧
    stepSP [78, 0] [.lit (.str "T")] [.ty .string]
        ((initState [.lit (.str "T")] [.ty .string]).push (.ty .boolean)) =
      some ((initState [.lit (.str "T")] [.ty .string]).stackPointer + 1) ∧
    stepVars [78, 0] [.lit (.str "T")] [.ty .string]
        ((initState [.lit (.str "T")] [.ty .string]).push (.ty .boolean)) =
      some 1 ∧
    stepTopE [78, 0] [.lit (.str "T")] []
        ((initState [.lit (.str "T")] []).push (.ty .boolean)) =
      some (.ty .boolean) ∧
    stepTopE [78, 0] [.lit (.str "T")] []
        ((initState [.lit (.str "T")] []).push .undefV) =
      some (.ty (.typeParameter "T")) :=
  ⟨rfl, rfl, rfl, rfl, by decide, rfl, rfl, rfl⟩

/-- C9 counterexample: the three malformed-program situations do NOT surface
as a single failure kind — an unknown opcode is silently skipped (the
opcode switch has no default branch) and the run completes normally; a pool
index out of range silently pushes a `literal undefined` node and completes
normally; only a stack underflow aborts, and it does so with the generic
`Error('Stack empty')` rather than a dedicated `RVMInvalidProgram` kind,
which does not exist in the implementation. -/
theorem c9_counterexample :
    runModel 50 [200, 0] [] [] false = .ok (.ty .string) false ∧
    runModel 50 [12, 5] [] [] false = .ok (.ty (.literal .undefV)) false ∧
    runModel 50 [69] [] [] false = .stackEmpty :=
  ⟨rfl, rfl, rfl⟩

/-- C9 (amended): what actually happens on each malformed-program situation —
an opcode the decoder does not know is skipped and execution continues at
the next program position; a `return` on an underflowing stack aborts with
the generic stack-empty error; a `literal` whose pool reference is missing
pushes a `literal undefined` node and continues. -/
theorem c9_amended :
    (∀ (ops : List Int) (pool : List PoolEntry) (inputs : List Entry)
        (sr : Bool) (st : MState) (n : Int),
      opAt ops st.program = some n → decodeOp n = none →
      step noNested ops pool inputs sr st =
        .next { st with program := st.program + 1 }) ∧
    (∀ (ops : List Int) (pool : List PoolEntry) (inputs : List Entry)
        (sr : Bool) (st : MState),
      opAt ops st.program = some 69 → st.stackPointer < 0 →
      step noNested ops pool inputs sr st = .done .stackEmpty) ∧
    (∀ (ops : List Int) (pool : List PoolEntry) (inputs : List Entry)
        (sr : Bool) (st : MState) (ref : Int),
      opAt ops st.program = some 12 → opAt ops (st.program + 1) = some ref →
      poolGet pool ref = none →
      step noNested ops pool inputs sr st =
        .next { ({ st with program := st.program + 1 }.push
                  (.ty (.literal .undefV))) with program := st.program + 1 + 1 }) := by
  refine ⟨?_, ?_, ?_⟩
  · intro ops pool inputs sr st n h1 h2
    simp only [step, h1, h2]
  · intro ops pool inputs sr st h1 h2
    have hd : decodeOp 69 = some .returnOp := rfl
    have hr : st.returnFrame = none := by
      unfold MState.returnFrame MState.pop
      rw [if_pos h2]
    simp only [step, h1, hd, hr]
  · intro ops pool inputs sr st ref h1 h2 h3
    have hd : decodeOp 12 = some .literal := rfl
    simp only [step, h1, hd, h2, h3, MState.push]

/-- C9 witness: a concrete unknown opcode (200) is skipped, a concrete
`return` on the empty stack reports the stack-empty error, and a concrete
out-of-range pool reference yields the `literal undefined` push. -/
theorem c9_amended_witness :
    step noNested [200] [] [] false (initState [] []) =
      .next { initState [] [] with program := (initState [] []).program + 1 } ∧
    step noNested [69] [] [] false (initState [] []) = .done .stackEmpty ∧
    step noNested [12, 5] [] [] false (initState [] []) =
      .next { ({ initState [] [] with program := (initState [] []).program + 1 }.push
                (.ty (.literal .undefV)))
              with program := (initState [] []).program + 1 + 1 } :=
  ⟨c9_amended.1 [200] [] [] false (initState [] []) 200 rfl rfl,
   c9_amended.2.1 [69] [] [] false (initState [] []) rfl (by decide),
   c9_amended.2.2 [12, 5] [] [] false (initState [] []) 5 rfl rfl rfl⟩

/-- C10: `keyof` on a popped type whose kind is neither objectLiteral nor
class pushes a union with an empty member list — which is not `never`
(second clause) and is pushed without unboxing (the machine-step clause
shows the node pushed is exactly `keyofResult`); for objectLiteral and
class inputs the member-name enumeration turns property, propertySignature,
method and methodSignature names into literal types and skips index
signatures. -/
theorem c10_keyof :
    (∀ t : Ty, isObjectLiteralOrClass t = false → keyofResult t = .union []) ∧
    Ty.union [] ≠ Ty.never ∧
    (∀ (ms : List Ty) (n : Lit) (ty : Ty) (o rd : Bool) (d : Option String),
      keyofMemberNames (.propertySignature n ty o rd d :: ms) =
        .literal n :: keyofMemberNames ms) ∧
    (∀ (ms : List Ty) (n : Lit) (ty : Ty) (o rd ab : Bool)
        (vis : Option Visibility) (d : Option String),
      keyofMemberNames (.property n ty o rd ab vis d :: ms) =
        .literal n :: keyofMemberNames ms) ∧
    (∀ (ms : List Ty) (n : Lit) (ps : List Ty) (ret : Ty) (o : Bool),
      keyofMemberNames (.methodSignature n ps ret o :: ms) =
        .literal n :: keyofMemberNames ms) ∧
    (∀ (ms : List Ty) (n : Lit) (ps : List Ty) (ret : Ty) (ab : Bool)
        (vis : Option Visibility),
      keyofMemberNames (.method n ps ret ab vis :: ms) =
        .literal n :: keyofMemberNames ms) ∧
    (∀ (ms : List Ty) (k v : Ty),
      keyofMemberNames (.indexSignature k v :: ms) = keyofMemberNames ms) ∧
    (∀ t : Ty,
      stepTopE [64] [] [] ((initState [] []).push (.ty t)) =
        some (.ty (keyofResult t))) := by
  refine ⟨?_, by simp, fun ms n ty o rd d => rfl, fun ms n ty o rd ab vis d => rfl,
    fun ms n ps ret o => rfl, fun ms n ps ret ab vis => rfl, fun ms k v => rfl,
    fun t => rfl⟩
  intro t h
  cases t <;> simp_all [isObjectLiteralOrClass, keyofResult]

/-- C10 witness: `keyof` of a tuple is the empty union, and the enumeration
of an object literal with one property signature and one index signature is
the property's name only. -/
theorem c10_keyof_witness :
    keyofResult (.tuple [.string]) = .union [] ∧
    keyofMemberNames
        [.propertySignature (.str "a") .string false false none,
         .indexSignature .string (.number none)] =
      [.literal (.str "a")] := by
  constructor
  · exact c10_keyof.1 (.tuple [.string]) (by decide)
  · rw [c10_keyof.2.2.1, c10_keyof.2.2.2.2.2.2.1]
    rfl

theorem find_first_constructor (p : Ty → Bool) : ∀ (pre : List Ty) (x : Ty)
    (post : List Ty), (∀ t ∈ pre, p t = false) → p x = true →
    (pre ++ x :: post).find? p = some x := by
  intro pre
  induction pre with
  | nil =>
    intro x post _ hx
    rw [List.nil_append, List.find?_cons_of_pos _ hx]
  | cons a as ih =>
    intro x post hpre hx
    rw [List.cons_append,
      List.find?_cons_of_neg _ (by simp [hpre a (List.mem_cons_self a as)]),
      ih x post (fun t ht => hpre t (List.mem_cons_of_mem a ht)) hx]

/-- C6: when the popped member frame of the `class` opcode contains a method
named `constructor` (first clause: the first such method, scanned left to
right), every constructor parameter carrying a visibility modifier is
projected to one synthetic property appended to the member list, with name,
type, visibility, optional and readonly carried over (second clause), and a
parameter without a visibility modifier yields none (third clause); the
final clause runs a whole program building a class whose constructor has a
`public optional readonly a: string` parameter and a plain `b: number`
parameter, producing exactly one appended property, for `a`. -/
theorem c6_constructor_projection :
    (∀ (pre post params : List Ty) (ret : Ty) (ab : Bool)
        (vis : Option Visibility),
      (∀ t ∈ pre, isConstructorMember t = false) →
      classApplyConstructorProjection
          (pre ++ .method (.str "constructor") params ret ab vis :: post) =
        (pre ++ .method (.str "constructor") params ret ab vis :: post) ++
          params.filterMap parameterToProperty) ∧
    (∀ (n : String) (ty : Ty) (o rd : Bool) (vis : Visibility),
      parameterToProperty (.parameter n ty o rd (some vis)) =
        some (.property (.str n) ty o rd false (some vis) none)) ∧
    (∀ (n : String) (ty : Ty) (o rd : Bool),
      parameterToProperty (.parameter n ty o rd none) = none) ∧
    runModel 50 [70, 70, 0, 28, 0, 49, 47, 48, 1, 28, 1, 11, 45, 2, 27]
        [.lit (.str "a"), .lit (.str "b"), .lit (.str "constructor")] [] false =
      .ok (.ty (.classT .object
        [.method (.str "constructor")
           [.parameter "a" .string true true (some .vpublic),
            .parameter "b" (.number none) false false none]
           .any false (some .vpublic),
         .property (.str "a") .string true true false (some .vpublic) none]
        none)) true := by
  refine ⟨?_, fun n ty o rd vis => rfl, fun n ty o rd => rfl, rfl⟩
  intro pre post params ret ab vis hpre
  unfold classApplyConstructorProjection
  rw [find_first_constructor isConstructorMember pre _ post hpre
    (by simp [isConstructorMember])]

/-- C6 witness: a concrete member list with one non-constructor member and a
constructor with one public and one modifier-free parameter projects
exactly the public parameter. -/
theorem c6_constructor_projection_witness :
    classApplyConstructorProjection
        ([.string] ++ .method (.str "constructor")
          [.parameter "a" .string true true (some .vpublic),
           .parameter "b" .string false false none] .any false none :: []) =
      ([.string] ++ .method (.str "constructor")
          [.parameter "a" .string true true (some .vpublic),
           .parameter "b" .string false false none] .any false none :: []) ++
        ([.parameter "a" .string true true (some .vpublic),
          .parameter "b" .string false false none].filterMap
            parameterToProperty) :=
  c6_constructor_projection.1 [.string] []
    [.parameter "a" .string true true (some .vpublic),
     .parameter "b" .string false false none] .any false none (by decide)

end RVM
